import Mathlib

/-!
Verification of the polysqueeze client library core: auth message
construction (`src/auth.rs`) and the WebSocket market-data per-asset
state (`examples/wss_market.rs`), shallowly embedded in Lean.

Bytes are modelled as `Nat` values below 256, byte strings as `List Nat`.
Machine 32-bit words are `Nat` reduced mod 2^32 where overflow matters.
-/

set_option maxRecDepth 100000

namespace Polysqueeze

/-! ## Bytes and UTF-8 -/

/-- UTF-8 encoding of a single character (1 to 4 bytes). -/
def utf8Bytes (c : Char) : List Nat :=
  let n := c.toNat
  if n < 128 then [n]
  else if n < 2048 then [192 + n / 64, 128 + n % 64]
  else if n < 65536 then [224 + n / 4096, 128 + n / 64 % 64, 128 + n % 64]
  else [240 + n / 262144, 128 + n / 4096 % 64, 128 + n / 64 % 64, 128 + n % 64]

/-- The UTF-8 bytes of a string, as `str.as_bytes()` sees them. -/
def strBytes (s : String) : List Nat :=
  s.data.foldr (fun c acc => utf8Bytes c ++ acc) []

/-! ## SHA-256 (FIPS 180-4), executable over `List Nat` bytes -/

def m32 (x : Nat) : Nat := x % 4294967296

def rotr (x n : Nat) : Nat := m32 ((x >>> n) ||| (x <<< (32 - n)))

def bnot32 (x : Nat) : Nat := 4294967295 ^^^ x

def bigSigma0 (x : Nat) : Nat := rotr x 2 ^^^ rotr x 13 ^^^ rotr x 22

def bigSigma1 (x : Nat) : Nat := rotr x 6 ^^^ rotr x 11 ^^^ rotr x 25

def smallSigma0 (x : Nat) : Nat := rotr x 7 ^^^ rotr x 18 ^^^ (x >>> 3)

def smallSigma1 (x : Nat) : Nat := rotr x 17 ^^^ rotr x 19 ^^^ (x >>> 10)

def chF (x y z : Nat) : Nat := (x &&& y) ^^^ (bnot32 x &&& z)

def majF (x y z : Nat) : Nat := (x &&& y) ^^^ (x &&& z) ^^^ (y &&& z)

def shaK : List Nat :=
  [1116352408, 1899447441, 3049323471, 3921009573, 961987163, 1508970993,
   2453635748, 2870763221, 3624381080, 310598401, 607225278, 1426881987,
   1925078388, 2162078206, 2614888103, 3248222580, 3835390401, 4022224774,
   264347078, 604807628, 770255983, 1249150122, 1555081692, 1996064986,
   2554220882, 2821834349, 2952996808, 3210313671, 3336571891, 3584528711,
   113926993, 338241895, 666307205, 773529912, 1294757372, 1396182291,
   1695183700, 1986661051, 2177026350, 2456956037, 2730485921, 2820302411,
   3259730800, 3345764771, 3516065817, 3600352804, 4094571909, 275423344,
   430227734, 506948616, 659060556, 883997877, 958139571, 1322822218,
   1537002063, 1747873779, 1955562222, 2024104815, 2227730452, 2361852424,
   2428436474, 2756734187, 3204031479, 3329325298]

def shaH0 : List Nat :=
  [1779033703, 3144134277, 1013904242, 2773480762, 1359893119, 2600822924,
   528734635, 1541459225]

/-- Big-endian 4-byte rendering of a 32-bit word. -/
def bytesBE4 (v : Nat) : List Nat :=
  [v / 16777216 % 256, v / 65536 % 256, v / 256 % 256, v % 256]

/-- Big-endian 8-byte rendering of a 64-bit value. -/
def bytesBE8 (v : Nat) : List Nat :=
  [v / 72057594037927936 % 256, v / 281474976710656 % 256,
   v / 1099511627776 % 256, v / 4294967296 % 256,
   v / 16777216 % 256, v / 65536 % 256, v / 256 % 256, v % 256]

/-- SHA-256 padding: append 0x80, zeros to 56 mod 64, then the bit length. -/
def sha256Pad (msg : List Nat) : List Nat :=
  msg ++ 128 :: List.replicate ((119 - msg.length % 64) % 64) 0
      ++ bytesBE8 (msg.length * 8)

/-- Group bytes into big-endian 32-bit words (input length a multiple of 4). -/
def toWords : List Nat → List Nat
  | a :: b :: c :: d :: rest =>
      (a * 16777216 + b * 65536 + c * 256 + d) :: toWords rest
  | _ => []

/-- Extend the 16 block words to 64 schedule words; `acc` is kept reversed. -/
def extendW : Nat → List Nat → List Nat
  | 0, acc => acc.reverse
  | n + 1, acc =>
      let w := m32 (smallSigma1 (acc.getD 1 0) + acc.getD 6 0
        + smallSigma0 (acc.getD 14 0) + acc.getD 15 0)
      extendW n (w :: acc)

/-- One SHA-256 compression round on the state `[a,b,c,d,e,f,g,h]`. -/
def shaRound (st : List Nat) (kw : Nat × Nat) : List Nat :=
  match st with
  | [a, b, c, d, e, f, g, h] =>
      let t1 := m32 (h + bigSigma1 e + chF e f g + kw.1 + kw.2)
      let t2 := m32 (bigSigma0 a + majF a b c)
      [m32 (t1 + t2), a, b, c, m32 (d + t1), e, f, g]
  | other => other

/-- Compress one 16-word block into the running hash state. -/
def compress (h : List Nat) (block : List Nat) : List Nat :=
  let w := extendW 48 block.reverse
  let st := (shaK.zip w).foldl shaRound h
  (h.zip st).map (fun p => m32 (p.1 + p.2))

/-- Fold all 16-word blocks of the padded message into the state. -/
def sha256Blocks : List Nat → List Nat → List Nat
  | h, w0 :: w1 :: w2 :: w3 :: w4 :: w5 :: w6 :: w7 :: w8 :: w9 :: w10
      :: w11 :: w12 :: w13 :: w14 :: w15 :: rest =>
      sha256Blocks
        (compress h [w0, w1, w2, w3, w4, w5, w6, w7, w8, w9, w10, w11,
          w12, w13, w14, w15]) rest
  | h, _ => h

/-- SHA-256 digest (32 bytes) of a byte string. -/
def sha256 (msg : List Nat) : List Nat :=
  (sha256Blocks shaH0 (toWords (sha256Pad msg))).foldr
    (fun w acc => bytesBE4 w ++ acc) []

/-- HMAC-SHA256 (RFC 2104) of `msg` under `key`. -/
def hmacSha256 (key msg : List Nat) : List Nat :=
  let k0 := if key.length > 64 then sha256 key else key
  let kp := k0 ++ List.replicate (64 - k0.length) 0
  sha256 ((kp.map (fun b => b ^^^ 92))
    ++ sha256 ((kp.map (fun b => b ^^^ 54)) ++ msg))

/-! ## Base64 (the `base64` crate's general-purpose engines)

`URL_SAFE` and `STANDARD` use padded canonical decoding; `URL_SAFE_NO_PAD`
requires the absence of padding. All three reject non-zero trailing bits. -/

/-- Sextet value of a character in the URL-safe alphabet. -/
def urlVal (c : Char) : Option Nat :=
  if 'A' ≤ c ∧ c ≤ 'Z' then some (c.toNat - 65)
  else if 'a' ≤ c ∧ c ≤ 'z' then some (c.toNat - 71)
  else if '0' ≤ c ∧ c ≤ '9' then some (c.toNat + 4)
  else if c = '-' then some 62
  else if c = '_' then some 63
  else none

/-- Sextet value of a character in the standard alphabet. -/
def stdVal (c : Char) : Option Nat :=
  if 'A' ≤ c ∧ c ≤ 'Z' then some (c.toNat - 65)
  else if 'a' ≤ c ∧ c ≤ 'z' then some (c.toNat - 71)
  else if '0' ≤ c ∧ c ≤ '9' then some (c.toNat + 4)
  else if c = '+' then some 62
  else if c = '/' then some 63
  else none

/-- Character for a sextet in the URL-safe alphabet. -/
def urlChar (n : Nat) : Char :=
  List.getD "ABCDEFGHIJKLMNOPQRSTUVWXYZabcdefghijklmnopqrstuvwxyz0123456789-_".data n 'A'

/-- Base64-encode bytes with padding, with alphabet `alpha`. -/
def b64EncodeGo (alpha : Nat → Char) : List Nat → List Char
  | [] => []
  | [a] => [alpha (a / 4), alpha (a % 4 * 16), '=', '=']
  | [a, b] => [alpha (a / 4), alpha (a % 4 * 16 + b / 16), alpha (b % 16 * 4), '=']
  | a :: b :: c :: rest =>
      alpha (a / 4) :: alpha (a % 4 * 16 + b / 16) :: alpha (b % 16 * 4 + c / 64)
        :: alpha (c % 64) :: b64EncodeGo alpha rest

/-- URL-safe base64 with padding, as a string. -/
def b64UrlPadEncode (bs : List Nat) : String :=
  String.mk (b64EncodeGo urlChar bs)

/-- Canonical padded base64 decoding: four-character quanta, `=` only in the
final quantum, trailing bits required to be zero. -/
def b64DecPad (val : Char → Option Nat) : List Char → Option (List Nat)
  | [] => some []
  | c1 :: c2 :: c3 :: c4 :: rest =>
      if rest = [] ∧ c3 = '=' ∧ c4 = '=' then
        match val c1, val c2 with
        | some v1, some v2 =>
            if v2 % 16 = 0 then some [v1 * 4 + v2 / 16] else none
        | _, _ => none
      else if rest = [] ∧ c4 = '=' then
        match val c1, val c2, val c3 with
        | some v1, some v2, some v3 =>
            if v3 % 4 = 0 then some [v1 * 4 + v2 / 16, v2 % 16 * 16 + v3 / 4]
            else none
        | _, _, _ => none
      else
        match val c1, val c2, val c3, val c4, b64DecPad val rest with
        | some v1, some v2, some v3, some v4, some bs =>
            some ((v1 * 4 + v2 / 16) :: (v2 % 16 * 16 + v3 / 4)
              :: (v3 % 4 * 64 + v4) :: bs)
        | _, _, _, _, _ => none
  | _ => none

/-- Unpadded base64 decoding: no `=` accepted (the alphabet rejects it), a
final quantum of two or three characters, trailing bits zero. -/
def b64DecNoPad (val : Char → Option Nat) : List Char → Option (List Nat)
  | [] => some []
  | [c1, c2] =>
      match val c1, val c2 with
      | some v1, some v2 =>
          if v2 % 16 = 0 then some [v1 * 4 + v2 / 16] else none
      | _, _ => none
  | [c1, c2, c3] =>
      match val c1, val c2, val c3 with
      | some v1, some v2, some v3 =>
          if v3 % 4 = 0 then some [v1 * 4 + v2 / 16, v2 % 16 * 16 + v3 / 4]
          else none
      | _, _, _ => none
  | c1 :: c2 :: c3 :: c4 :: rest =>
      match val c1, val c2, val c3, val c4, b64DecNoPad val rest with
      | some v1, some v2, some v3, some v4, some bs =>
          some ((v1 * 4 + v2 / 16) :: (v2 % 16 * 16 + v3 / 4)
            :: (v3 % 4 * 64 + v4) :: bs)
      | _, _, _, _, _ => none
  | _ => none

/-! ## Hex -/

/-- Lowercase hex digit for a value below 16. -/
def hexChar (n : Nat) : Char :=
  List.getD "0123456789abcdef".data n '0'

/-- Lowercase hex string of a byte string. -/
def hexOfBytes (bs : List Nat) : String :=
  String.mk (bs.foldr (fun b acc => hexChar (b / 16) :: hexChar (b % 16) :: acc) [])

/-- `alloy_primitives::hex::encode_prefixed`: `0x` plus lowercase hex. -/
def encodePrefixed (bs : List Nat) : String :=
  "0x" ++ hexOfBytes bs

/-! ## JSON values and `serde_json::to_string`

The body handed to `format_body_for_signature` is any `Serialize` value; the
claims use the fragment consisting of strings, unsigned integers and objects
whose keys keep declaration order. `serde_json::to_string` renders that
fragment compactly, keys in order, with standard JSON string escapes. -/

inductive Json where
  | str (s : String) : Json
  | nat (n : Nat) : Json
  | obj (fields : List (String × Json)) : Json

/-- `serde_json` escape of one character inside a string literal. -/
def escapeChar (c : Char) : List Char :=
  if c = '"' then ['\\', '"']
  else if c = '\\' then ['\\', '\\']
  else if c = '\x08' then ['\\', 'b']
  else if c = '\x09' then ['\\', 't']
  else if c = '\x0a' then ['\\', 'n']
  else if c = '\x0c' then ['\\', 'f']
  else if c = '\x0d' then ['\\', 'r']
  else if c.toNat < 32 then
    ['\\', 'u', '0', '0', hexChar (c.toNat / 16), hexChar (c.toNat % 16)]
  else [c]

/-- A JSON string literal: quotes around the escaped characters. -/
def jsonQuote (s : String) : String :=
  "\"" ++ String.mk (s.data.foldr (fun c acc => escapeChar c ++ acc) []) ++ "\""

mutual

/-- Compact rendering of a JSON value, as `serde_json::to_string` emits it. -/
def renderJson : Json → String
  | .str s => jsonQuote s
  | .nat n => Nat.repr n
  | .obj fields => "\x7b" ++ renderFields fields ++ "\x7d"

/-- Comma-separated `"key":value` pairs, keys in declaration order. -/
def renderFields : List (String × Json) → String
  | [] => ""
  | [(k, v)] => jsonQuote k ++ ":" ++ renderJson v
  | (k, v) :: rest => jsonQuote k ++ ":" ++ renderJson v ++ "," ++ renderFields rest

end

/-! ## `auth.rs` -/

/-- `decode_api_secret` (auth.rs:30): URL-safe padded, then URL-safe
unpadded, then standard base64, then the raw UTF-8 bytes. -/
def decode_api_secret (s : String) : List Nat :=
  match b64DecPad urlVal s.data with
  | some bs => bs
  | none =>
    match b64DecNoPad urlVal s.data with
    | some bs => bs
    | none =>
      match b64DecPad stdVal s.data with
      | some bs => bs
      | none => strBytes s

/-- `format_body_for_signature` (auth.rs:38): `serde_json::to_string` of the
body. On this value fragment serialization cannot fail, so the `Result`
wrapper of the source is dropped. -/
def format_body_for_signature (body : Json) : String :=
  renderJson body

/-- The rendered body used in the HMAC message: empty string when absent. -/
def renderBodyOpt : Option Json → String
  | some b => format_body_for_signature b
  | none => ""

/-- ASCII uppercase of one character. -/
def asciiUpper (c : Char) : Char :=
  if 97 ≤ c.toNat ∧ c.toNat ≤ 122 then Char.ofNat (c.toNat - 32) else c

/-- Model of `str::to_uppercase` on the ASCII fragment. -/
def rustUpper (s : String) : String :=
  String.mk (s.data.map asciiUpper)

/-- The message signed by `build_hmac_signature` (auth.rs:149):
`timestamp ++ method.to_uppercase() ++ path ++ body`. -/
def hmacMessage (timestamp : Nat) (method path : String) (body : Option Json) : String :=
  Nat.repr timestamp ++ rustUpper method ++ path ++ renderBodyOpt body

/-- `build_hmac_signature` (auth.rs:131): HMAC-SHA256 keyed by the decoded
secret over the message, URL-safe base64 with padding. `Hmac::new_from_slice`
accepts every key length for SHA-256, so the error branch is dead and the
`Result` wrapper is dropped. -/
def build_hmac_signature (secret : String) (timestamp : Nat)
    (method path : String) (body : Option Json) : String :=
  b64UrlPadEncode (hmacSha256 (decode_api_secret secret)
    (strBytes (hmacMessage timestamp method path body)))

/-! ## Signer, EIP-712 structs and header builders

`PrivateKeySigner` wraps a secp256k1 key; the curve computation itself is
outside the claims, so a signer is abstracted to its 20-byte address and a
typed-data signing function producing the 65 raw signature bytes. What the
claims check is which struct and domain are signed and how the output is
rendered. -/

/-- The `ClobAuth` sol! struct (auth.rs:46). The `uint256` nonce is a `Nat`
below 2^256 at call sites. -/
structure ClobAuth where
  address : List Nat
  timestamp : String
  nonce : Nat
  message : String

/-- An EIP-712 domain as built by `eip712_domain!`: the ClobAuth domain
omits the verifying contract, the Order domain carries one. -/
structure Eip712Domain where
  name : String
  version : String
  chainId : Nat
  verifyingContract : Option (List Nat)

/-- Abstraction of `PrivateKeySigner`: an address plus
`sign_typed_data_sync` for the ClobAuth struct. -/
structure Signer where
  address : List Nat
  signTypedData : ClobAuth → Eip712Domain → List Nat

/-- A well-formed signer: 20-byte address, 65 signature bytes, all bytes. -/
def SignerWf (s : Signer) : Prop :=
  s.address.length = 20 ∧
  ∀ a d, (s.signTypedData a d).length = 65 ∧ ∀ b ∈ s.signTypedData a d, b < 256

/-- The fixed attestation literal of `sign_clob_auth_message` (auth.rs:86). -/
def clobAuthMessage : String :=
  "This message attests that I control the given wallet"

/-- The ClobAuth EIP-712 domain (auth.rs:96): chain id fixed to Polygon 137,
no verifying contract. -/
def clobAuthDomain : Eip712Domain :=
  { name := "ClobAuthDomain", version := "1", chainId := 137,
    verifyingContract := none }

/-- The ClobAuth struct signed for a signer, timestamp and nonce
(auth.rs:89). -/
def clobAuthStructOf (signer : Signer) (timestamp : String) (nonce : Nat) : ClobAuth :=
  { address := signer.address, timestamp := timestamp, nonce := nonce,
    message := clobAuthMessage }

/-- `sign_clob_auth_message` (auth.rs:81): sign the ClobAuth struct under
the fixed domain and hex-encode the signature with a `0x` prefix. -/
def sign_clob_auth_message (signer : Signer) (timestamp : String) (nonce : Nat) : String :=
  let message := "This message attests that I control the given wallet"
  let auth_struct : ClobAuth :=
    { address := signer.address, timestamp := timestamp, nonce := nonce,
      message := message }
  let domain : Eip712Domain :=
    { name := "ClobAuthDomain", version := "1", chainId := 137,
      verifyingContract := none }
  encodePrefixed (signer.signTypedData auth_struct domain)

/-- `ApiCredentials` (types.rs). -/
structure ApiCredentials where
  api_key : String
  secret : String
  passphrase : String

/-- `create_l1_headers` (auth.rs:163). The current Unix time is an effect
and becomes the explicit `timestamp` argument. -/
def create_l1_headers (signer : Signer) (nonce : Option Nat) (timestamp : Nat) :
    List (String × String) :=
  let ts := Nat.repr timestamp
  let n := nonce.getD 0
  [("poly_address", encodePrefixed signer.address),
   ("poly_signature", sign_clob_auth_message signer ts n),
   ("poly_timestamp", ts),
   ("poly_nonce", Nat.repr n)]

/-- `create_l2_headers` (auth.rs:178), with the current Unix time as the
explicit `timestamp` argument. -/
def create_l2_headers (signer : Signer) (api_creds : ApiCredentials)
    (method req_path : String) (body : Option Json) (timestamp : Nat) :
    List (String × String) :=
  [("poly_address", encodePrefixed signer.address),
   ("poly_signature",
     build_hmac_signature api_creds.secret timestamp method req_path body),
   ("poly_timestamp", Nat.repr timestamp),
   ("poly_api_key", api_creds.api_key),
   ("poly_passphrase", api_creds.passphrase)]

/-! ## `wss_market.rs`: per-asset orderbook state

`AssetBookData` (wss_market.rs:208) caches bids, asks, a ring of recent
trades and a map `asset_id → latest hash`. The `recent_hashes` field is a
`std::collections::HashMap`, whose iteration order is unspecified; it is
modelled as an association list with unique keys, together with an oracle
`pick` standing for `keys().next()` — any admissible iteration order. Rust
`Decimal` prices are modelled as `Rat`, which carries the same ordering. -/

structure OrderSummary where
  price : Rat
  size : Rat

inductive Side where
  | BUY : Side
  | SELL : Side

/-- The `book` event payload (fields the state tracking uses). -/
structure MarketBook where
  asset_id : String
  market : String
  hash : String
  bids : List OrderSummary
  asks : List OrderSummary

/-- The `last_trade_price` event payload (fields the state tracking uses). -/
structure LastTradeMessage where
  asset_id : String
  market : String
  price : Rat
  size : Rat
  side : Side

/-- `HashMap::insert`: replace the value of an existing key, otherwise add
the new entry. -/
def hmInsert (m : List (String × String)) (k v : String) : List (String × String) :=
  if m.any (fun p => p.1 == k) then
    m.map (fun p => if p.1 == k then (k, v) else p)
  else m ++ [(k, v)]

/-- `HashMap::get`, cloned. -/
def hmLookup (m : List (String × String)) (k : String) : Option String :=
  (m.find? (fun p => p.1 == k)).map Prod.snd

/-- `HashMap::remove` (the removed value is unused by the source). -/
def hmRemove (m : List (String × String)) (k : String) : List (String × String) :=
  m.filter (fun p => !(p.1 == k))

structure AssetBookData where
  bids : List OrderSummary
  asks : List OrderSummary
  recent_trades : List (Nat × LastTradeMessage × Option String)
  best_bid : Option Rat
  best_ask : Option Rat
  recent_hashes : List (String × String)

/-- `AssetBookData::new` (wss_market.rs:219). -/
def AssetBookData.new : AssetBookData :=
  { bids := [], asks := [], recent_trades := [], best_bid := none,
    best_ask := none, recent_hashes := [] }

/-- `AssetBookData::update_book` (wss_market.rs:230): replace bids and asks,
refresh best bid and ask from the first entries, and store the book hash
unless it is empty. -/
def AssetBookData.update_book (s : AssetBookData) (book : MarketBook) : AssetBookData :=
  { s with
    bids := book.bids,
    asks := book.asks,
    best_bid := book.bids.head?.map OrderSummary.price,
    best_ask := book.asks.head?.map OrderSummary.price,
    recent_hashes :=
      if book.hash ≠ "" then hmInsert s.recent_hashes book.asset_id book.hash
      else s.recent_hashes }

/-- `AssetBookData::add_trade` (wss_market.rs:244): push the trade with the
most recent known hash for its asset, keeping at most 50 entries. `now` is
the wall-clock reading, passed explicitly. -/
def AssetBookData.add_trade (s : AssetBookData) (now : Nat)
    (trade : LastTradeMessage) : AssetBookData :=
  let hash := hmLookup s.recent_hashes trade.asset_id
  let l := (now, trade, hash) :: s.recent_trades
  { s with recent_trades := if l.length > 50 then l.take 50 else l }

/-- `AssetBookData::update_hash` (wss_market.rs:256): insert, then if the
map exceeds 10 entries remove the key `keys().next()` returns — `pick`
models that unspecified iteration order. -/
def AssetBookData.update_hash (pick : List (String × String) → Option String)
    (s : AssetBookData) (asset_id hash : String) : AssetBookData :=
  let m := hmInsert s.recent_hashes asset_id hash
  if m.length > 10 then
    match pick m with
    | some k => { s with recent_hashes := hmRemove m k }
    | none => { s with recent_hashes := m }
  else { s with recent_hashes := m }

/-- One inbound event as the example's event loop routes it to the state
(wss_market.rs:347): a `book` snapshot, one `price_change` delta's hash, or
a `last_trade_price`. -/
inductive WssOp where
  | book (b : MarketBook) : WssOp
  | priceHash (asset_id hash : String) : WssOp
  | trade (now : Nat) (t : LastTradeMessage) : WssOp

/-- Apply one event to the per-asset state. -/
def applyOp (pick : List (String × String) → Option String)
    (s : AssetBookData) : WssOp → AssetBookData
  | .book b => s.update_book b
  | .priceHash a h => AssetBookData.update_hash pick s a h
  | .trade now t => s.add_trade now t

/-- Run a sequence of events from the empty state. -/
def runOps (pick : List (String × String) → Option String)
    (ops : List WssOp) : AssetBookData :=
  ops.foldl (applyOp pick) AssetBookData.new

/-! ## Spec-side definitions and concrete test data -/

/-- The §4.1 secret decoder as the spec words it: try URL-safe padded,
URL-safe unpadded, standard base64 in that order, first success wins, raw
UTF-8 bytes as the always-successful fallback. -/
def decodeApiSecretSpec (s : String) : List Nat :=
  match b64DecPad urlVal s.data, b64DecNoPad urlVal s.data,
      b64DecPad stdVal s.data with
  | some bs, _, _ => bs
  | none, some bs, _ => bs
  | none, none, some bs => bs
  | none, none, none => strBytes s

/-- The `^0x[0-9a-f]\x7b130\x7d$` shape of an EIP-712 signature string. -/
def eip712SigFormat (s : String) : Prop :=
  s.length = 132 ∧ s.data.take 2 = ['0', 'x'] ∧
  ∀ c ∈ s.data.drop 2,
    (48 ≤ c.toNat ∧ c.toNat ≤ 57) ∨ (97 ≤ c.toNat ∧ c.toNat ≤ 102)

/-- A consistent book snapshot: first bid price at most first ask price
whenever both sides are nonempty. -/
def consistentBook (b : MarketBook) : Prop :=
  ∀ p q, b.bids.head? = some p → b.asks.head? = some q → p.price ≤ q.price

/-- Consistency requirement for an event: only `book` snapshots carry one. -/
def opConsistent : WssOp → Prop
  | .book b => consistentBook b
  | _ => True

/-- The tracked best bid is at most the best ask when both are present. -/
def bestConsistent (s : AssetBookData) : Prop :=
  ∀ p q, s.best_bid = some p → s.best_ask = some q → p ≤ q

/-- An iteration-order oracle that yields the first list entry. -/
def pickHead : List (String × String) → Option String :=
  fun m => m.head?.map Prod.fst

/-- An iteration-order oracle that yields the last list entry; `HashMap`
iteration order is unspecified, so this order is as admissible as any. -/
def pickLast : List (String × String) → Option String :=
  fun m => m.getLast?.map Prod.fst

/-- The TP-1 sample order body (auth.rs:307), §4.2 of the spec. -/
def sampleOrderBody : Json :=
  .obj [("order", .obj [
      ("salt", .nat 123456789),
      ("maker", .str "0xabc"),
      ("signer", .str "0xabc"),
      ("taker", .str "0x0000000000000000000000000000000000000000"),
      ("tokenId", .str "1111"),
      ("makerAmount", .str "500"),
      ("takerAmount", .str "5000"),
      ("expiration", .str "0"),
      ("nonce", .str "0"),
      ("feeRateBps", .str "0"),
      ("side", .str "BUY"),
      ("signatureType", .nat 1),
      ("signature", .str "0xdeadbeef")]),
    ("owner", .str "owner-key"),
    ("orderType", .str "GTC")]

/-- The TP-1 canonical body literal (`PY_ORDER_BODY`, auth.rs:209). -/
def tp1Body : String :=
  "\x7b\"order\":\x7b\"salt\":123456789,\"maker\":\"0xabc\",\"signer\":\"0xabc\",\"taker\":\"0x0000000000000000000000000000000000000000\",\"tokenId\":\"1111\",\"makerAmount\":\"500\",\"takerAmount\":\"5000\",\"expiration\":\"0\",\"nonce\":\"0\",\"feeRateBps\":\"0\",\"side\":\"BUY\",\"signatureType\":1,\"signature\":\"0xdeadbeef\"\x7d,\"owner\":\"owner-key\",\"orderType\":\"GTC\"\x7d"

/-- A signer whose abstract signature is 65 zero bytes. -/
def zeroSigner : Signer :=
  { address := List.replicate 20 0,
    signTypedData := fun _ _ => List.replicate 65 0 }

/-- A wire book whose first bid prices above its first ask. -/
def badBook : MarketBook :=
  { asset_id := "A", market := "m", hash := "h",
    bids := [{ price := 1, size := 1 }], asks := [{ price := 0, size := 1 }] }

/-- A short consistent event sequence: snapshot, trade, price-change hash. -/
def goodOps : List WssOp :=
  [.book { asset_id := "A", market := "m", hash := "h",
           bids := [{ price := 0, size := 5 }],
           asks := [{ price := 1, size := 5 }] },
   .trade 0 { asset_id := "A", market := "m", price := 1, size := 1,
              side := Side.BUY },
   .priceHash "A" "h2"]

/-- Eleven book snapshots with distinct assets and non-empty hashes. -/
def elevenBooks : List WssOp :=
  [.book { asset_id := "a0", market := "m", hash := "h", bids := [], asks := [] },
   .book { asset_id := "a1", market := "m", hash := "h", bids := [], asks := [] },
   .book { asset_id := "a2", market := "m", hash := "h", bids := [], asks := [] },
   .book { asset_id := "a3", market := "m", hash := "h", bids := [], asks := [] },
   .book { asset_id := "a4", market := "m", hash := "h", bids := [], asks := [] },
   .book { asset_id := "a5", market := "m", hash := "h", bids := [], asks := [] },
   .book { asset_id := "a6", market := "m", hash := "h", bids := [], asks := [] },
   .book { asset_id := "a7", market := "m", hash := "h", bids := [], asks := [] },
   .book { asset_id := "a8", market := "m", hash := "h", bids := [], asks := [] },
   .book { asset_id := "a9", market := "m", hash := "h", bids := [], asks := [] },
   .book { asset_id := "a10", market := "m", hash := "h", bids := [], asks := [] }]

/-- Eleven price-change hash updates with distinct assets, oldest first. -/
def elevenHashes : List WssOp :=
  [.priceHash "a0" "h0", .priceHash "a1" "h1", .priceHash "a2" "h2",
   .priceHash "a3" "h3", .priceHash "a4" "h4", .priceHash "a5" "h5",
   .priceHash "a6" "h6", .priceHash "a7" "h7", .priceHash "a8" "h8",
   .priceHash "a9" "h9", .priceHash "a10" "h10"]

/-- A state already holding one stored hash. -/
def c10State : AssetBookData :=
  { AssetBookData.new with recent_hashes := [("A", "h0")] }

/-- A book snapshot whose hash field is the empty string. -/
def c10Book : MarketBook :=
  { asset_id := "A", market := "m", hash := "",
    bids := [{ price := 1, size := 2 }], asks := [{ price := 1, size := 3 }] }

end Polysqueeze

namespace Polysqueeze

/-! ## Helper lemmas -/

theorem strData_injective {s t : String} (h : s.data = t.data) : s = t := by
  cases s; cases t; exact congrArg String.mk h

theorem urlVal_urlChar : ∀ v < 64, urlVal (urlChar v) = some v := by decide

theorem urlChar_ne_pad_lt : ∀ v < 64, urlChar v ≠ '=' := by decide

theorem urlChar_ne_pad (v : Nat) : urlChar v ≠ '=' := by
  by_cases h : v < 64
  · exact urlChar_ne_pad_lt v h
  · unfold urlChar
    rw [List.getD_eq_default]
    · decide
    · have h64 :
        "ABCDEFGHIJKLMNOPQRSTUVWXYZabcdefghijklmnopqrstuvwxyz0123456789-_".data.length
          = 64 := by decide
      omega

/-- Decoding inverts padded URL-safe encoding on byte strings. -/
theorem dec_enc : ∀ (bs : List Nat), (∀ x ∈ bs, x < 256) →
    b64DecPad urlVal (b64EncodeGo urlChar bs) = some bs
  | [], _ => rfl
  | [a], h => by
      have ha : a < 256 := h a (by simp)
      have h1 : urlVal (urlChar (a / 4)) = some (a / 4) :=
        urlVal_urlChar _ (by omega)
      have h2 : urlVal (urlChar (a % 4 * 16)) = some (a % 4 * 16) :=
        urlVal_urlChar _ (by omega)
      simp only [b64EncodeGo, b64DecPad]
      rw [if_pos (by simp)]
      simp only [h1, h2]
      rw [if_pos (by omega)]
      have e1 : a / 4 * 4 + a % 4 * 16 / 16 = a := by omega
      rw [e1]
  | [a, b], h => by
      have ha : a < 256 := h a (by simp)
      have hb : b < 256 := h b (by simp)
      have h1 : urlVal (urlChar (a / 4)) = some (a / 4) :=
        urlVal_urlChar _ (by omega)
      have h2 : urlVal (urlChar (a % 4 * 16 + b / 16))
          = some (a % 4 * 16 + b / 16) := urlVal_urlChar _ (by omega)
      have h3 : urlVal (urlChar (b % 16 * 4)) = some (b % 16 * 4) :=
        urlVal_urlChar _ (by omega)
      simp only [b64EncodeGo, b64DecPad]
      rw [if_neg (fun hh => urlChar_ne_pad (b % 16 * 4) hh.2.1),
          if_pos (by simp)]
      simp only [h1, h2, h3]
      rw [if_pos (by omega)]
      have e1 : a / 4 * 4 + (a % 4 * 16 + b / 16) / 16 = a := by omega
      have e2 : (a % 4 * 16 + b / 16) % 16 * 16 + b % 16 * 4 / 4 = b := by omega
      rw [e1, e2]
  | a :: b :: c :: rest, h => by
      have ha : a < 256 := h a (by simp)
      have hb : b < 256 := h b (by simp)
      have hc : c < 256 := h c (by simp)
      have ih := dec_enc rest (fun x hx => h x (by simp [hx]))
      have h1 : urlVal (urlChar (a / 4)) = some (a / 4) :=
        urlVal_urlChar _ (by omega)
      have h2 : urlVal (urlChar (a % 4 * 16 + b / 16))
          = some (a % 4 * 16 + b / 16) := urlVal_urlChar _ (by omega)
      have h3 : urlVal (urlChar (b % 16 * 4 + c / 64))
          = some (b % 16 * 4 + c / 64) := urlVal_urlChar _ (by omega)
      have h4 : urlVal (urlChar (c % 64)) = some (c % 64) :=
        urlVal_urlChar _ (by omega)
      simp only [b64EncodeGo, b64DecPad]
      rw [if_neg (fun hh => urlChar_ne_pad (c % 64) hh.2.2),
          if_neg (fun hh => urlChar_ne_pad (c % 64) hh.2)]
      simp only [h1, h2, h3, h4, ih]
      have e1 : a / 4 * 4 + (a % 4 * 16 + b / 16) / 16 = a := by omega
      have e2 : (a % 4 * 16 + b / 16) % 16 * 16 + (b % 16 * 4 + c / 64) / 4 = b := by
        omega
      have e3 : (b % 16 * 4 + c / 64) % 4 * 64 + c % 64 = c := by omega
      rw [e1, e2, e3]

theorem hexChar_range : ∀ n < 16,
    (48 ≤ (hexChar n).toNat ∧ (hexChar n).toNat ≤ 57) ∨
    (97 ≤ (hexChar n).toNat ∧ (hexChar n).toNat ≤ 102) := by decide

theorem hexfold_length (bs : List Nat) :
    (bs.foldr (fun b acc => hexChar (b / 16) :: hexChar (b % 16) :: acc) []).length
      = 2 * bs.length := by
  induction bs with
  | nil => rfl
  | cons b t ihr =>
      simp only [List.foldr_cons, List.length_cons, ihr]
      omega

theorem hexfold_mem (bs : List Nat) (hbs : ∀ b ∈ bs, b < 256) :
    ∀ c ∈ bs.foldr (fun b acc => hexChar (b / 16) :: hexChar (b % 16) :: acc) [],
      (48 ≤ c.toNat ∧ c.toNat ≤ 57) ∨ (97 ≤ c.toNat ∧ c.toNat ≤ 102) := by
  induction bs with
  | nil => simp
  | cons b t ihr =>
      intro ch hch
      have hb : b < 256 := hbs b (by simp)
      simp only [List.foldr_cons, List.mem_cons] at hch
      rcases hch with rfl | rfl | hch
      · exact hexChar_range _ (by omega)
      · exact hexChar_range _ (by omega)
      · exact ihr (fun x hx => hbs x (by simp [hx])) ch hch

/-- Any `0x`-prefixed hex encoding of 65 bytes has the L1 signature shape. -/
theorem sigFormat_encodePrefixed (bs : List Nat) (hlen : bs.length = 65)
    (hmem : ∀ b ∈ bs, b < 256) : eip712SigFormat (encodePrefixed bs) := by
  have hdata : (encodePrefixed bs).data
      = '0' :: 'x'
        :: bs.foldr (fun b acc => hexChar (b / 16) :: hexChar (b % 16) :: acc) [] := by
    show ("0x" ++ hexOfBytes bs).data = _
    rw [String.data_append]
    rfl
  refine ⟨?_, ?_, ?_⟩
  · show (encodePrefixed bs).data.length = 132
    rw [hdata]
    simp only [List.length_cons, hexfold_length, hlen]
  · rw [hdata]
    rfl
  · rw [hdata]
    intro c hc
    exact hexfold_mem bs hmem c hc

/-- Framing of `update_hash`: only `recent_hashes` changes. -/
theorem update_hash_frame (pick : List (String × String) → Option String)
    (s : AssetBookData) (a h : String) :
    (AssetBookData.update_hash pick s a h).best_bid = s.best_bid ∧
    (AssetBookData.update_hash pick s a h).best_ask = s.best_ask ∧
    (AssetBookData.update_hash pick s a h).recent_trades = s.recent_trades := by
  unfold AssetBookData.update_hash
  dsimp only
  split
  · split <;> exact ⟨rfl, rfl, rfl⟩
  · exact ⟨rfl, rfl, rfl⟩

/-- The trade ring stays within 50 entries after one `add_trade`. -/
theorem ring_bound {α : Type} (x : α) (l : List α) (h : l.length ≤ 50) :
    (if (x :: l).length > 50 then (x :: l).take 50 else x :: l).length ≤ 50 := by
  split
  · rw [List.length_take]
    exact Nat.min_le_left _ _
  · next hnot =>
      simp only [List.length_cons] at hnot ⊢
      omega

theorem add_trade_ring (s : AssetBookData) (now : Nat) (t : LastTradeMessage)
    (h : s.recent_trades.length ≤ 50) :
    (s.add_trade now t).recent_trades.length ≤ 50 :=
  ring_bound _ s.recent_trades h

/-- One event preserves best-price consistency and the ring bound. -/
theorem applyOp_preserves (pick : List (String × String) → Option String)
    (s : AssetBookData) (op : WssOp) (hop : opConsistent op)
    (h1 : bestConsistent s) (h2 : s.recent_trades.length ≤ 50) :
    bestConsistent (applyOp pick s op) ∧
    (applyOp pick s op).recent_trades.length ≤ 50 := by
  cases op with
  | book b =>
      refine ⟨?_, h2⟩
      intro p q hp hq
      have hp' : b.bids.head?.map OrderSummary.price = some p := hp
      have hq' : b.asks.head?.map OrderSummary.price = some q := hq
      obtain ⟨ps, hps, hpp⟩ := Option.map_eq_some'.mp hp'
      obtain ⟨qs, hqs, hqq⟩ := Option.map_eq_some'.mp hq'
      rw [← hpp, ← hqq]
      exact hop ps qs hps hqs
  | priceHash a hh =>
      obtain ⟨e1, e2, e3⟩ := update_hash_frame pick s a hh
      refine ⟨?_, ?_⟩
      · intro p q hp hq
        exact h1 p q (e1 ▸ hp) (e2 ▸ hq)
      · rw [show (applyOp pick s (.priceHash a hh)).recent_trades
            = (AssetBookData.update_hash pick s a hh).recent_trades from rfl, e3]
        exact h2
  | trade now t =>
      refine ⟨?_, add_trade_ring s now t h2⟩
      intro p q hp hq
      exact h1 p q hp hq

/-- Folding consistent events preserves the two invariants. -/
theorem runOps_aux (pick : List (String × String) → Option String) :
    ∀ (ops : List WssOp) (s : AssetBookData),
      (∀ op ∈ ops, opConsistent op) →
      bestConsistent s → s.recent_trades.length ≤ 50 →
      bestConsistent (ops.foldl (applyOp pick) s) ∧
      (ops.foldl (applyOp pick) s).recent_trades.length ≤ 50
  | [], _, _, h1, h2 => ⟨h1, h2⟩
  | op :: ops, s, hops, h1, h2 => by
      obtain ⟨g1, g2⟩ :=
        applyOp_preserves pick s op (hops op (by simp)) h1 h2
      exact runOps_aux pick ops (applyOp pick s op)
        (fun o ho => hops o (by simp [ho])) g1 g2

/-! ## Claims -/

/-- C1: the TP-1 sample order body renders to exactly the reference compact
JSON literal, the SHA-256 of `"123456POST/order"` followed by that literal is
`838d…faea`, and `build_hmac_signature` with secret `"c2VjcmV0"`, timestamp
123456, method POST and path `/order` returns the reference MAC string. -/
theorem claim_C1_tp1_fixture :
    format_body_for_signature sampleOrderBody = tp1Body ∧
    hexOfBytes (sha256 (strBytes ("123456POST/order" ++ tp1Body)))
      = "838d12287413f1af44c2487c7b06c49189d8781280703a81fba93af84fa4faea" ∧
    build_hmac_signature "c2VjcmV0" 123456 "POST" "/order" (some sampleOrderBody)
      = "DI6rkXwOkY27WwKZsKr8Gtn5KPl-ca2yAqHD5ECszR0=" :=
  ⟨by decide, by decide, by decide⟩

/-- C2: for every signer, credentials, method, path, optional body and
timestamp, `create_l2_headers` returns exactly the five poly headers, with
the api key and passphrase copied verbatim, the timestamp in decimal, and
the signature the padded URL-safe base64 of the HMAC-SHA256, keyed by the
decoded secret, of `timestamp ++ method.to_uppercase() ++ path ++ body`
(empty body string when absent). -/
theorem claim_C2_l2_headers (signer : Signer) (creds : ApiCredentials)
    (method path : String) (body : Option Json) (ts : Nat) :
    (create_l2_headers signer creds method path body ts).map Prod.fst
      = ["poly_address", "poly_signature", "poly_timestamp", "poly_api_key",
         "poly_passphrase"] ∧
    create_l2_headers signer creds method path body ts
      = [("poly_address", encodePrefixed signer.address),
         ("poly_signature", b64UrlPadEncode (hmacSha256
            (decode_api_secret creds.secret)
            (strBytes (Nat.repr ts ++ rustUpper method ++ path
              ++ renderBodyOpt body)))),
         ("poly_timestamp", Nat.repr ts),
         ("poly_api_key", creds.api_key),
         ("poly_passphrase", creds.passphrase)] :=
  ⟨rfl, rfl⟩

/-- C3: `decode_api_secret` tries padded URL-safe, unpadded URL-safe, then
standard base64 and falls back to the raw UTF-8 bytes, the first success
winning (totality is type-level: it always returns a byte string); and
`decode_api_secret "cQ==" = [0x71]`. -/
theorem claim_C3_secret_decode_order :
    (∀ s : String, decode_api_secret s = decodeApiSecretSpec s) ∧
    decode_api_secret "cQ==" = [113] := by
  refine ⟨fun s => ?_, by decide⟩
  unfold decode_api_secret decodeApiSecretSpec
  cases h1 : b64DecPad urlVal s.data <;>
    cases h2 : b64DecNoPad urlVal s.data <;>
      cases h3 : b64DecPad stdVal s.data <;> rfl

/-- C4: `sign_clob_auth_message` signs the ClobAuth struct whose message is
the fixed attestation literal, under the domain `ClobAuthDomain` version 1
with chain id hard-wired to 137 and no verifying contract, for every signer,
timestamp and nonce. -/
theorem claim_C4_clob_auth_domain (signer : Signer) (ts : String) (nonce : Nat) :
    sign_clob_auth_message signer ts nonce
      = encodePrefixed
          (signer.signTypedData (clobAuthStructOf signer ts nonce) clobAuthDomain) ∧
    (clobAuthStructOf signer ts nonce).message
      = "This message attests that I control the given wallet" ∧
    clobAuthDomain.chainId = 137 ∧
    clobAuthDomain.name = "ClobAuthDomain" ∧
    clobAuthDomain.version = "1" ∧
    clobAuthDomain.verifyingContract = none :=
  ⟨rfl, rfl, rfl, rfl, rfl, rfl⟩

/-- C5: `create_l1_headers` returns exactly the four poly headers, the nonce
defaults to 0 when absent, `poly_nonce` is the decimal nonce, and for a
well-formed signer the signature matches `^0x[0-9a-f]\x7b130\x7d$`. -/
theorem claim_C5_l1_headers (signer : Signer) (hw : SignerWf signer)
    (nonce : Option Nat) (ts : Nat) :
    create_l1_headers signer nonce ts
      = [("poly_address", encodePrefixed signer.address),
         ("poly_signature",
           sign_clob_auth_message signer (Nat.repr ts) (nonce.getD 0)),
         ("poly_timestamp", Nat.repr ts),
         ("poly_nonce", Nat.repr (nonce.getD 0))] ∧
    (create_l1_headers signer nonce ts).map Prod.fst
      = ["poly_address", "poly_signature", "poly_timestamp", "poly_nonce"] ∧
    create_l1_headers signer none ts = create_l1_headers signer (some 0) ts ∧
    eip712SigFormat (sign_clob_auth_message signer (Nat.repr ts) (nonce.getD 0)) := by
  refine ⟨rfl, rfl, rfl, ?_⟩
  show eip712SigFormat (encodePrefixed (signer.signTypedData _ _))
  exact sigFormat_encodePrefixed _ (hw.2 _ _).1 (hw.2 _ _).2

/-- C5 witness: the shape claims evaluated for a concrete signer, nonce
12345 and a fixed timestamp. -/
theorem claim_C5_l1_headers_witness :
    SignerWf zeroSigner ∧
    (create_l1_headers zeroSigner (some 12345) 1700000000).map Prod.fst
      = ["poly_address", "poly_signature", "poly_timestamp", "poly_nonce"] ∧
    eip712SigFormat
      (sign_clob_auth_message zeroSigner (Nat.repr 1700000000) 12345) := by
  have hw : SignerWf zeroSigner :=
    ⟨by decide, fun a d =>
      ⟨show (List.replicate 65 (0 : Nat)).length = 65 by decide,
       show ∀ b ∈ List.replicate 65 (0 : Nat), b < 256 by decide⟩⟩
  obtain ⟨-, h2, -, h4⟩ := claim_C5_l1_headers zeroSigner hw (some 12345) 1700000000
  exact ⟨hw, h2, h4⟩

/-- C6 counterexample: changing only the method, from `"get"` to `"GET"`,
leaves the HMAC output unchanged because the message uppercases the method,
so the claim as stated is false. -/
theorem claim_C6_counterexample :
    build_hmac_signature "k" 1 "get" "/p" none
      = build_hmac_signature "k" 1 "GET" "/p" none ∧
    ("get" : String) ≠ "GET" :=
  ⟨by decide, by decide⟩

/-- C6 amended: the MAC is a function of the signed message; changing the
path alone or the rendered body alone changes that message, and changing
the method alone changes it exactly when the uppercased methods differ —
methods equal up to case produce identical output. -/
theorem claim_C6_amended (secret : String) (ts : Nat) (m1 m2 p1 p2 : String)
    (b1 b2 : Option Json) :
    build_hmac_signature secret ts m1 p1 b1
      = b64UrlPadEncode (hmacSha256 (decode_api_secret secret)
          (strBytes (hmacMessage ts m1 p1 b1))) ∧
    (p1 ≠ p2 → hmacMessage ts m1 p1 b1 ≠ hmacMessage ts m1 p2 b1) ∧
    (renderBodyOpt b1 ≠ renderBodyOpt b2 →
      hmacMessage ts m1 p1 b1 ≠ hmacMessage ts m1 p1 b2) ∧
    (rustUpper m1 ≠ rustUpper m2 →
      hmacMessage ts m1 p1 b1 ≠ hmacMessage ts m2 p1 b1) ∧
    (rustUpper m1 = rustUpper m2 →
      build_hmac_signature secret ts m1 p1 b1
        = build_hmac_signature secret ts m2 p1 b1) := by
  refine ⟨rfl, ?_, ?_, ?_, ?_⟩
  · intro hne heq
    apply hne
    have hd := congrArg String.data heq
    simp only [hmacMessage, String.data_append, List.append_assoc] at hd
    have h1 := List.append_cancel_left hd
    have h2 := List.append_cancel_left h1
    have h3 := List.append_cancel_right h2
    exact strData_injective h3
  · intro hne heq
    apply hne
    have hd := congrArg String.data heq
    simp only [hmacMessage, String.data_append, List.append_assoc] at hd
    have h1 := List.append_cancel_left hd
    have h2 := List.append_cancel_left h1
    have h3 := List.append_cancel_left h2
    exact strData_injective h3
  · intro hne heq
    apply hne
    have hd := congrArg String.data heq
    simp only [hmacMessage, String.data_append, List.append_assoc] at hd
    have h1 := List.append_cancel_left hd
    have h2 := List.append_cancel_right h1
    exact strData_injective h2
  · intro hup
    unfold build_hmac_signature hmacMessage
    rw [hup]

/-- C6 amended witness: the sensitivity statements instantiated at concrete
inputs, hypotheses discharged by evaluation. -/
theorem claim_C6_amended_witness :
    build_hmac_signature "k" 7 "get" "/a" none
      = b64UrlPadEncode (hmacSha256 (decode_api_secret "k")
          (strBytes (hmacMessage 7 "get" "/a" none))) ∧
    hmacMessage 7 "get" "/a" none ≠ hmacMessage 7 "get" "/b" none ∧
    hmacMessage 7 "get" "/a" none
      ≠ hmacMessage 7 "get" "/a" (some (Json.nat 1)) ∧
    hmacMessage 7 "get" "/a" none ≠ hmacMessage 7 "post" "/a" none ∧
    build_hmac_signature "k" 7 "get" "/a" none
      = build_hmac_signature "k" 7 "gEt" "/a" none := by
  obtain ⟨h1, h2, h3, h4, -⟩ :=
    claim_C6_amended "k" 7 "get" "post" "/a" "/b" none (some (Json.nat 1))
  refine ⟨h1, h2 (by decide), h3 (by decide), h4 (by decide), ?_⟩
  exact (claim_C6_amended "k" 7 "get" "gEt" "/a" "/b" none none).2.2.2.2 (by decide)

/-- C7 counterexample: the wire does not sort bids, and `update_book` takes
`bids.first()` as the best bid, so one inverted `book` snapshot already
violates `best_bid ≤ best_ask`: the claim over arbitrary event sequences is
false. -/
theorem claim_C7_counterexample :
    (runOps pickHead [WssOp.book badBook]).best_bid = some 1 ∧
    (runOps pickHead [WssOp.book badBook]).best_ask = some 0 ∧
    ¬ bestConsistent (runOps pickHead [WssOp.book badBook]) :=
  ⟨rfl, rfl, fun hcon => absurd (hcon 1 0 rfl rfl) (by norm_num)⟩

/-- C7 amended: for any iteration-order oracle and any event sequence whose
book snapshots are consistent (first bid price ≤ first ask price when both
sides are nonempty), the final state satisfies `best_bid ≤ best_ask`
whenever both are present, and the trade ring holds at most 50 entries. -/
theorem claim_C7_amended (pick : List (String × String) → Option String)
    (ops : List WssOp) (h : ∀ op ∈ ops, opConsistent op) :
    bestConsistent (runOps pick ops) ∧
    (runOps pick ops).recent_trades.length ≤ 50 :=
  runOps_aux pick ops AssetBookData.new h
    (fun p q hp _ => by cases hp) (by simp [AssetBookData.new])

/-- C7 amended witness: a consistent snapshot followed by a trade and a
price-change hash update keeps both invariants. -/
theorem claim_C7_amended_witness :
    bestConsistent (runOps pickHead goodOps) ∧
    (runOps pickHead goodOps).recent_trades.length ≤ 50 :=
  claim_C7_amended pickHead goodOps (by
    intro op hop
    simp only [goodOps, List.mem_cons, List.not_mem_nil, or_false] at hop
    rcases hop with rfl | rfl | rfl
    · intro p q hp hq
      have hp' : some ({ price := 0, size := 5 } : OrderSummary) = some p := hp
      have hq' : some ({ price := 1, size := 5 } : OrderSummary) = some q := hq
      cases hp'
      cases hq'
      norm_num
    · trivial
    · trivial)

/-- C8: eleven `book` snapshots with distinct assets leave eleven hash
entries — `update_book` inserts without enforcing the cap — and under an
admissible iteration order `update_hash`, despite naming the picked key
`oldest_key`, evicts the newest insertion while the oldest survives. -/
theorem claim_C8_hash_cap_violated :
    (runOps pickHead elevenBooks).recent_hashes.length = 11 ∧
    (runOps pickLast elevenHashes).recent_hashes.map Prod.fst
      = ["a0", "a1", "a2", "a3", "a4", "a5", "a6", "a7", "a8", "a9"] :=
  ⟨by decide, by decide⟩

/-- C9: `decode_api_secret` is surjective onto byte strings: every byte
string is the decoding of its padded URL-safe base64 encoding, which the
first decoder in the chain accepts. -/
theorem claim_C9_surjective (bs : List Nat) (h : ∀ x ∈ bs, x < 256) :
    ∃ s : String, decode_api_secret s = bs := by
  refine ⟨String.mk (b64EncodeGo urlChar bs), ?_⟩
  have hd : (String.mk (b64EncodeGo urlChar bs)).data = b64EncodeGo urlChar bs := rfl
  unfold decode_api_secret
  rw [hd, dec_enc bs h]

/-- C9 witness: a concrete byte string, including a byte that is not
ASCII, is reached. -/
theorem claim_C9_surjective_witness :
    (∀ x ∈ [0, 255, 16], x < 256) ∧
    ∃ s : String, decode_api_secret s = [0, 255, 16] :=
  ⟨by decide, claim_C9_surjective [0, 255, 16] (by decide)⟩

/-- C10: a `book` event with an empty hash leaves the per-asset hash map
untouched while bids, asks and the best prices are still replaced from the
snapshot. -/
theorem claim_C10_empty_hash_frame (s : AssetBookData) (book : MarketBook)
    (h : book.hash = "") :
    (s.update_book book).recent_hashes = s.recent_hashes ∧
    (s.update_book book).bids = book.bids ∧
    (s.update_book book).asks = book.asks ∧
    (s.update_book book).best_bid = book.bids.head?.map OrderSummary.price ∧
    (s.update_book book).best_ask = book.asks.head?.map OrderSummary.price ∧
    (s.update_book book).recent_trades = s.recent_trades := by
  refine ⟨?_, rfl, rfl, rfl, rfl, rfl⟩
  show (if book.hash ≠ "" then hmInsert s.recent_hashes book.asset_id book.hash
    else s.recent_hashes) = s.recent_hashes
  rw [if_neg (by simp [h])]

/-- C10 witness: a stored hash survives an empty-hash snapshot that still
replaces the book sides. -/
theorem claim_C10_empty_hash_frame_witness :
    (c10State.update_book c10Book).recent_hashes = [("A", "h0")] ∧
    (c10State.update_book c10Book).bids = c10Book.bids := by
  obtain ⟨h1, h2, -⟩ := claim_C10_empty_hash_frame c10State c10Book rfl
  exact ⟨h1.trans rfl, h2⟩

end Polysqueeze
